import Mathlib

/-!
Verification of the ElasticDash-Logger trace-conclusion checker.

Shallow embedding of `worker/src/services/TraceConclusionService.ts`,
`worker/src/services/TraceConclusionRunner.ts` (in the repository snapshot as
an unnamed file), and the `notifyTraceConcluded` helper of
`packages/shared/src/server/repositories/observations.ts` as quoted in
`TRACE_CONCLUSION_CHECKER.md`.

Timestamps are integers (seconds). Effectful calls (the ClickHouse query, the
HTTP notification) are modelled by explicit outcome parameters; log side
effects are collected into explicit lists.
-/

namespace TraceConclusion

/-- Severity levels of the logger used by the worker. -/
inductive LogLevel where
  | debug
  | info
  | error
deriving DecidableEq, Repr

/-- One emitted log line: severity and message text. -/
structure LogEntry where
  level : LogLevel
  message : String
deriving DecidableEq, Repr

/-- Threshold constant of `TraceConclusionService`:
`private readonly INACTIVITY_THRESHOLD_SECONDS = 60`. -/
def INACTIVITY_THRESHOLD_SECONDS : Int := 60

/-- A single-quote character, used to write the SQL string literal quoting
without a literal apostrophe in this file. -/
def sqlQuote : String := Char.toString (Char.ofNat 39)

/-- The ClickHouse query text built by `findConcludedTraces`, with the
threshold interpolated twice exactly as in the template string of the source
(whitespace normalised to single spaces; the `LIMIT 1000` cap is a literal
part of the template). -/
def buildFindConcludedQuery (threshold : Int) : String :=
  "WITH trace_latest_updates AS ( SELECT trace_id, max(updated_at) as last_updated FROM observations FINAL WHERE updated_at < now() - INTERVAL "
    ++ toString threshold
    ++ " SECOND GROUP BY trace_id ) SELECT DISTINCT t.id as trace_id FROM traces FINAL t INNER JOIN trace_latest_updates tlu ON t.id = tlu.trace_id WHERE NOT has(mapKeys(t.metadata), "
    ++ sqlQuote ++ "feature_id" ++ sqlQuote
    ++ ") AND t.timestamp < now() - INTERVAL "
    ++ toString threshold
    ++ " SECOND LIMIT 1000"

/-- Row of the `observations` table as used by the query: the trace it belongs
to and its last-updated timestamp (seconds). -/
structure Observation where
  trace_id : String
  updated_at : Int
deriving DecidableEq, Repr

/-- Row of the `traces` table as used by the query: id, own timestamp, and the
key set of its `metadata` map (`mapKeys(t.metadata)`). -/
structure Trace where
  id : String
  timestamp : Int
  metadataKeys : List String
deriving DecidableEq, Repr

/-- Semantics of the CTE `trace_latest_updates`: rows of `observations` are
first filtered by `updated_at < now() - INTERVAL threshold SECOND`, then
grouped by `trace_id` with `max(updated_at) as last_updated`. Note the filter
runs before the aggregation, as in SQL. -/
def trace_latest_updates (now : Int) (observations : List Observation) :
    List (String × Option Int) :=
  let filtered := observations.filter
    (fun o => decide (o.updated_at < now - INACTIVITY_THRESHOLD_SECONDS))
  let ids := (filtered.map (fun o => o.trace_id)).eraseDups
  ids.map (fun tid =>
    (tid, ((filtered.filter (fun o => o.trace_id == tid)).map
      (fun o => o.updated_at)).max?))

/-- Semantics of the outer query of `findConcludedTraces`: inner join of
`traces` with the CTE on `t.id = tlu.trace_id`, then the WHERE conditions
(no `feature_id` key in the metadata, trace timestamp older than the
threshold), then `SELECT DISTINCT t.id`, then `LIMIT 1000`. -/
def findConcludedTracesQuery (now : Int) (traces : List Trace)
    (observations : List Observation) : List String :=
  let tlu := trace_latest_updates now observations
  let joined := traces.filter (fun t => tlu.any (fun p => p.1 == t.id))
  let selected := joined.filter (fun t =>
    (!(t.metadataKeys.contains "feature_id"))
      && decide (t.timestamp < now - INACTIVITY_THRESHOLD_SECONDS))
  ((selected.map (fun t => t.id)).eraseDups).take 1000

/-- Eligibility predicate written from the words of the spec invariant
(section 3): the trace has at least one Observation, the maximum last-updated
timestamp across ALL of its Observations is older than now minus the
threshold, the trace timestamp is older than the threshold, and the metadata
lacks the `feature_id` key. This definition intentionally follows the spec,
not the SQL, so the two can be compared. -/
def specEligibleCandidate (now : Int) (observations : List Observation)
    (t : Trace) : Bool :=
  let obs := observations.filter (fun o => o.trace_id == t.id)
  (match (obs.map (fun o => o.updated_at)).max? with
    | some m => decide (m < now - INACTIVITY_THRESHOLD_SECONDS)
    | none => false)
    && decide (t.timestamp < now - INACTIVITY_THRESHOLD_SECONDS)
    && (!(t.metadataKeys.contains "feature_id"))

/-- Default base URL of the notification endpoint
(`LOCAL_API_BASE_URL` default). -/
def API_BASE_URL : String := "http://localhost:3000"

/-- Observable outcome of one awaited call of the notification helper: the
HTTP request it issued (url, trace_id body field), the log lines it emitted
itself, and whether the call throws back to the caller. -/
structure NotifyOutcome where
  request : String × String
  logs : List LogEntry
  throws : Bool
deriving DecidableEq, Repr

/-- Embedding of `notifyTraceConcluded` as quoted in
`TRACE_CONCLUSION_CHECKER.md`: it posts to
`API_BASE_URL + /api/features/analyze` with body field `trace_id`, and wraps
the post in try/catch, logging an error on failure and never rethrowing.
`httpOk` is the outcome of the HTTP call (2xx and no transport error). -/
def notifyTraceConcluded (httpOk : Bool) (traceId : String) : NotifyOutcome :=
  { request := (API_BASE_URL ++ "/api/features/analyze", traceId)
    logs := if httpOk then []
      else [⟨LogLevel.error, "Failed to notify features analyze"⟩]
    throws := false }

/-- Loop state of `processConcludedTraces`: the two mutable counters, the
sequence of trace ids passed to `notifyTraceConcluded` so far (in call
order), and the log lines emitted so far. -/
structure ProcState where
  successCount : Nat
  failureCount : Nat
  calls : List String
  logs : List LogEntry
deriving DecidableEq, Repr

/-- The `for (const traceId of traceIds)` loop of `processConcludedTraces`.
`notify i tid` is the observable outcome of the i-th awaited call
`notifyTraceConcluded(traceId)`; on normal return the success counter and a
debug line are added, on a throw the failure counter and an error line naming
the trace id are added, and the loop continues with the remaining ids. -/
def processLoop (notify : Nat → String → NotifyOutcome) (idx : Nat)
    (st : ProcState) : List String → ProcState
  | [] => st
  | traceId :: rest =>
    let r := notify idx traceId
    if r.throws then
      processLoop notify (idx + 1)
        { successCount := st.successCount
          failureCount := st.failureCount + 1
          calls := st.calls ++ [traceId]
          logs := st.logs ++ r.logs
            ++ [⟨LogLevel.error,
                  "Failed to notify trace concluded for " ++ traceId ++ ":"⟩] }
        rest
    else
      processLoop notify (idx + 1)
        { successCount := st.successCount + 1
          failureCount := st.failureCount
          calls := st.calls ++ [traceId]
          logs := st.logs ++ r.logs
            ++ [⟨LogLevel.debug,
                  "Successfully notified trace concluded: " ++ traceId⟩] }
        rest

/-- Specification-side count of the calls of one pass that return normally
(do not throw), starting at call index `idx`. -/
def succeededCalls (notify : Nat → String → NotifyOutcome) (idx : Nat) :
    List String → Nat
  | [] => 0
  | traceId :: rest =>
    (if (notify idx traceId).throws then 0 else 1)
      + succeededCalls notify (idx + 1) rest

/-- Observable result of `processConcludedTraces`: the returned value is
`successCount`; `calls` and `logs` record the side effects. -/
structure ProcessResult where
  successCount : Nat
  failureCount : Nat
  calls : List String
  logs : List LogEntry
deriving DecidableEq, Repr

/-- Embedding of `processConcludedTraces(traceIds)`: empty input returns 0
immediately with no side effects; otherwise an info line is logged, the loop
runs over all ids sequentially, and a final summary info line with both
counters is logged. The returned number is the final `successCount`. -/
def processConcludedTraces (notify : Nat → String → NotifyOutcome)
    (traceIds : List String) : ProcessResult :=
  if traceIds.length = 0 then
    { successCount := 0, failureCount := 0, calls := [], logs := [] }
  else
    let st0 : ProcState :=
      { successCount := 0, failureCount := 0, calls := []
        logs := [⟨LogLevel.info,
          "Processing " ++ toString traceIds.length ++ " concluded traces"⟩] }
    let st := processLoop notify 0 st0 traceIds
    { successCount := st.successCount
      failureCount := st.failureCount
      calls := st.calls
      logs := st.logs
        ++ [⟨LogLevel.info,
              "Processed concluded traces: " ++ toString st.successCount
                ++ " succeeded, " ++ toString st.failureCount ++ " failed"⟩] }

/-- Row shape returned by `queryClickhouse` for this query. -/
structure QueryRow where
  trace_id : String
deriving DecidableEq, Repr

/-- Embedding of `findConcludedTraces`: the ClickHouse call either resolves
with rows or rejects. On success the rows are mapped to their trace ids and
an info line is logged when the list is non-empty; on rejection the error is
logged and the empty list is returned (the error is not propagated). -/
def findConcludedTraces (queryResult : Except String (List QueryRow)) :
    List String × List LogEntry :=
  match queryResult with
  | Except.ok results =>
    let traceIds := results.map (fun r => r.trace_id)
    (traceIds,
      if traceIds.length > 0 then
        [⟨LogLevel.info,
          "Found " ++ toString traceIds.length
            ++ " concluded traces ready for processing"⟩]
      else [])
  | Except.error _ =>
    ([], [⟨LogLevel.error, "Failed to query concluded traces:"⟩])

/-- Observable result of one orchestrator cycle: the returned count, the
sequence of notification calls made, and all log lines emitted. -/
structure CycleResult where
  ret : Nat
  calls : List String
  logs : List LogEntry
deriving DecidableEq, Repr

/-- The body of the try block of `checkAndProcessConcludedTraces`: find the
concluded traces, then process them. -/
def checkAndProcessBody (queryResult : Except String (List QueryRow))
    (notify : Nat → String → NotifyOutcome) : CycleResult :=
  let found := findConcludedTraces queryResult
  let p := processConcludedTraces notify found.1
  { ret := p.successCount, calls := p.calls, logs := found.2 ++ p.logs }

/-- The try/catch boundary of `checkAndProcessConcludedTraces`: if the body
completes, its result is returned; if anything inside raises, the error is
logged and 0 is returned with no further effects. -/
def checkAndProcessConcludedTraces (body : Except String CycleResult) :
    CycleResult :=
  match body with
  | Except.ok r => r
  | Except.error _ =>
    { ret := 0, calls := []
      logs := [⟨LogLevel.error, "Error in trace conclusion check:"⟩] }

/-- One full cycle of the orchestrator in the normal case where the body
itself does not raise (both collaborators already contain their own
failures). -/
def runCycle (queryResult : Except String (List QueryRow))
    (notify : Nat → String → NotifyOutcome) : CycleResult :=
  checkAndProcessConcludedTraces
    (Except.ok (checkAndProcessBody queryResult notify))

/-- Embedding of `TraceConclusionRunner.execute`: a starting debug line, the
logs of the cycle, then either an info line with the processed count or a
debug line that there was nothing to process. -/
def execute (cycle : CycleResult) : List LogEntry :=
  [⟨LogLevel.debug, "Starting trace conclusion check"⟩]
    ++ cycle.logs
    ++ (if cycle.ret > 0 then
          [⟨LogLevel.info,
            "Trace conclusion check: processed " ++ toString cycle.ret
              ++ " traces"⟩]
        else
          [⟨LogLevel.debug, "Trace conclusion check: no traces to process"⟩])

/-- Modelled from the spec: the source of `PeriodicRunner`
(`worker/src/utils/PeriodicRunner.ts`) is not part of the repository
snapshot, only `TraceConclusionRunner` which extends it. Events observable at
the Scheduler boundary: a tick of the interval timer, and the completion of
the running unit of work. -/
inductive SchedulerEvent where
  | tick
  | complete
deriving DecidableEq, Repr

/-- Modelled from the spec: Scheduler state — whether an invocation of the
unit of work is currently in flight, how many invocations were started and
finished, and how many ticks were skipped because of overlap. -/
structure SchedulerState where
  running : Bool
  started : Nat
  finished : Nat
  skipped : Nat
deriving DecidableEq, Repr

/-- Modelled from the spec (section 4.1): on a tick, if an invocation is
still running the tick is skipped, not queued (no pending work is recorded);
otherwise a new invocation starts. On completion the running invocation
finishes. -/
def schedulerStep (s : SchedulerState) : SchedulerEvent → SchedulerState
  | SchedulerEvent.tick =>
    if s.running then { s with skipped := s.skipped + 1 }
    else { s with running := true, started := s.started + 1 }
  | SchedulerEvent.complete =>
    if s.running then { s with running := false, finished := s.finished + 1 }
    else s

/-- Initial Scheduler state: idle, nothing started. -/
def schedulerInit : SchedulerState :=
  { running := false, started := 0, finished := 0, skipped := 0 }

/-- The Scheduler state after a sequence of events. -/
def schedulerRun (events : List SchedulerEvent) : SchedulerState :=
  events.foldl schedulerStep schedulerInit

/-- Character-list substring test: does `pat` occur contiguously inside the
second list? -/
def charsContain (pat : List Char) : List Char → Bool
  | [] => pat.isEmpty
  | c :: rest => pat.isPrefixOf (c :: rest) || charsContain pat rest

/-- Substring test on strings, via their character lists. -/
def containsMarker (s marker : String) : Bool :=
  charsContain marker.data s.data

/-- A trace created 120 seconds before `now = 0`, with no `feature_id`
metadata key. -/
def staleTrace : Trace := { id := "t1", timestamp := -120, metadataKeys := [] }

/-- Two observations of that trace: one last updated 120 seconds ago, one
last updated only 10 seconds ago (inside the 60-second threshold). -/
def mixedObservations : List Observation :=
  [{ trace_id := "t1", updated_at := -120 },
   { trace_id := "t1", updated_at := -10 }]

end TraceConclusion

namespace TraceConclusion

/-! ## Helper lemmas about the notification loop -/

/-- The loop calls the notification helper once per remaining candidate, in
list order, appended to the calls already made. -/
theorem processLoop_calls (notify : Nat → String → NotifyOutcome) :
    ∀ (l : List String) (idx : Nat) (st : ProcState),
      (processLoop notify idx st l).calls = st.calls ++ l := by
  intro l
  induction l with
  | nil => intro idx st; simp [processLoop]
  | cons hd tl ih =>
    intro idx st
    by_cases h : (notify idx hd).throws
    · simp [processLoop, h, ih]
    · simp [processLoop, h, ih]

/-- The final success counter adds, to the incoming counter, exactly the
number of remaining calls that return normally. -/
theorem processLoop_successCount (notify : Nat → String → NotifyOutcome) :
    ∀ (l : List String) (idx : Nat) (st : ProcState),
      (processLoop notify idx st l).successCount
        = st.successCount + succeededCalls notify idx l := by
  intro l
  induction l with
  | nil => intro idx st; simp [processLoop, succeededCalls]
  | cons hd tl ih =>
    intro idx st
    by_cases h : (notify idx hd).throws
    · simp [processLoop, h, ih, succeededCalls]
    · simp [processLoop, h, ih, succeededCalls]
      omega

/-- Each iteration increments exactly one of the two counters, so their sum
grows by the number of remaining candidates. -/
theorem processLoop_counts (notify : Nat → String → NotifyOutcome) :
    ∀ (l : List String) (idx : Nat) (st : ProcState),
      (processLoop notify idx st l).successCount
          + (processLoop notify idx st l).failureCount
        = st.successCount + st.failureCount + l.length := by
  intro l
  induction l with
  | nil => intro idx st; simp [processLoop]
  | cons hd tl ih =>
    intro idx st
    by_cases h : (notify idx hd).throws
    · simp [processLoop, h, ih]; omega
    · simp [processLoop, h, ih]; omega

/-- At most every call succeeds. -/
theorem succeededCalls_le (notify : Nat → String → NotifyOutcome) :
    ∀ (l : List String) (idx : Nat),
      succeededCalls notify idx l ≤ l.length := by
  intro l
  induction l with
  | nil => intro idx; simp [succeededCalls]
  | cons hd tl ih =>
    intro idx
    have := ih (idx + 1)
    by_cases h : (notify idx hd).throws
    · simp [succeededCalls, h]; omega
    · simp [succeededCalls, h]; omega

/-! ## Scheduler invariant -/

/-- One step preserves the bookkeeping invariant: the number of started
invocations equals the number of finished ones plus one exactly when an
invocation is in flight. -/
theorem schedulerStep_invariant (s : SchedulerState) (e : SchedulerEvent)
    (h : s.started = s.finished + (if s.running then 1 else 0)) :
    (schedulerStep s e).started
      = (schedulerStep s e).finished
        + (if (schedulerStep s e).running then 1 else 0) := by
  cases e with
  | tick =>
    by_cases hr : s.running <;> simp [schedulerStep, hr] <;> simp [hr] at h
      <;> omega
  | complete =>
    by_cases hr : s.running <;> simp [schedulerStep, hr] <;> simp [hr] at h
      <;> omega

/-- The invariant holds along any event sequence from any state satisfying
it. -/
theorem schedulerFoldl_invariant :
    ∀ (events : List SchedulerEvent) (s : SchedulerState),
      s.started = s.finished + (if s.running then 1 else 0) →
      (events.foldl schedulerStep s).started
        = (events.foldl schedulerStep s).finished
          + (if (events.foldl schedulerStep s).running then 1 else 0) := by
  intro events
  induction events with
  | nil => intro s h; simpa using h
  | cons e rest ih =>
    intro s h
    simpa [List.foldl] using ih (schedulerStep s e) (schedulerStep_invariant s e h)

end TraceConclusion

namespace TraceConclusion

/-! ## Claim theorems -/

/-- C1: the claim states a trace is selected iff it has an observation, the
maximum last-updated timestamp across ALL its observations is older than the
threshold, its own timestamp is older than the threshold, and metadata lacks
`feature_id`; in particular a trace with observations updated 120s and 10s
ago must not be selected. The query as written filters observations by age
BEFORE the max-aggregation, so that trace IS selected even though its most
recent update is 10s old, while the spec predicate rejects it. -/
theorem claim_C1_code_divergence :
    findConcludedTracesQuery 0 [staleTrace] mixedObservations = ["t1"]
      ∧ specEligibleCandidate 0 mixedObservations staleTrace = false := by
  constructor
  · rfl
  · rfl

/-- C2: for every candidate list of length k and every behaviour of the
notification calls, `processConcludedTraces` calls the notifier once per
candidate (k calls), and returns the number of calls that returned normally,
a value between 0 and k. -/
theorem claim_C2_exact_calls_and_success_count
    (notify : Nat → String → NotifyOutcome) (traceIds : List String) :
    (processConcludedTraces notify traceIds).calls = traceIds
      ∧ (processConcludedTraces notify traceIds).calls.length = traceIds.length
      ∧ (processConcludedTraces notify traceIds).successCount
          = succeededCalls notify 0 traceIds
      ∧ (processConcludedTraces notify traceIds).successCount
          ≤ traceIds.length := by
  unfold processConcludedTraces
  by_cases h : traceIds.length = 0
  · have hnil : traceIds = [] := List.length_eq_zero.mp h
    subst hnil
    simp [succeededCalls]
  · simp only [h, if_neg, if_false]
    refine ⟨?_, ?_, ?_, ?_⟩
    · simpa using processLoop_calls notify traceIds 0 _
    · simp [processLoop_calls notify traceIds 0]
    · have h1 := processLoop_successCount notify traceIds 0
        { successCount := 0, failureCount := 0, calls := []
          logs := [⟨LogLevel.info,
            "Processing " ++ toString traceIds.length
              ++ " concluded traces"⟩] }
      simpa using h1
    · have h1 := processLoop_successCount notify traceIds 0
        { successCount := 0, failureCount := 0, calls := []
          logs := [⟨LogLevel.info,
            "Processing " ++ toString traceIds.length
              ++ " concluded traces"⟩] }
      have h2 := succeededCalls_le notify traceIds 0
      simp only [h1]
      omega

/-- C3: if the ClickHouse query rejects, `findConcludedTraces` returns the
empty list and logs an error instead of propagating, and the whole cycle of
`checkAndProcessConcludedTraces` returns 0 with zero notification calls. -/
theorem claim_C3_query_failure_contained (e : String)
    (notify : Nat → String → NotifyOutcome) :
    findConcludedTraces (Except.error e)
        = ([], [⟨LogLevel.error, "Failed to query concluded traces:"⟩])
      ∧ runCycle (Except.error e) notify
        = { ret := 0, calls := []
            logs := [⟨LogLevel.error, "Failed to query concluded traces:"⟩] } := by
  exact ⟨rfl, rfl⟩

/-- C4: the claim states the notification posts to
`<base>/api/features/analyze` with body `trace_id`, and that the call counts
as a failure (failure counter incremented, error log naming the candidate)
iff the HTTP call fails. The posting part holds, but `notifyTraceConcluded`
catches the HTTP error itself and never rethrows, so with one candidate whose
HTTP call fails the service records 1 success and 0 failures and the only
error log does not name the candidate — contradicting the claim and the
repository unit tests. -/
theorem claim_C4_failure_never_counted :
    (notifyTraceConcluded false "trace-1").request
        = ("http://localhost:3000/api/features/analyze", "trace-1")
      ∧ (notifyTraceConcluded false "trace-1").throws = false
      ∧ (processConcludedTraces
            (fun _ tid => notifyTraceConcluded false tid)
            ["trace-1"]).successCount = 1
      ∧ (processConcludedTraces
            (fun _ tid => notifyTraceConcluded false tid)
            ["trace-1"]).failureCount = 0
      ∧ ((processConcludedTraces
            (fun _ tid => notifyTraceConcluded false tid)
            ["trace-1"]).logs.all
          (fun l => !(l == ⟨LogLevel.error,
            "Failed to notify trace concluded for trace-1:"⟩))) = true := by
  refine ⟨rfl, rfl, rfl, rfl, ?_⟩
  rfl

/-- C5: the orchestrator boundary never lets an error escape: an error body
is converted to return value 0 plus an error log, and a completed body is
returned unchanged. -/
theorem claim_C5_orchestrator_never_throws (e : String) (r : CycleResult) :
    checkAndProcessConcludedTraces (Except.error e)
        = { ret := 0, calls := []
            logs := [⟨LogLevel.error, "Error in trace conclusion check:"⟩] }
      ∧ checkAndProcessConcludedTraces (Except.ok r) = r := by
  exact ⟨rfl, rfl⟩

set_option maxRecDepth 20000 in
/-- C7: the query text built with the configured threshold contains the
60-second window marker, and contains the 1000-row limit marker. -/
theorem claim_C7_query_markers :
    containsMarker (buildFindConcludedQuery INACTIVITY_THRESHOLD_SECONDS)
        "INTERVAL 60 SECOND" = true
      ∧ containsMarker (buildFindConcludedQuery INACTIVITY_THRESHOLD_SECONDS)
        "LIMIT 1000" = true := by
  constructor
  · rfl
  · rfl

/-- C8: when detection yields no rows, the cycle returns 0, makes zero
notification calls and emits no log of its own, and the runner emits exactly
the starting debug line and the nothing-to-process debug line — in
particular no info-level summary line. -/
theorem claim_C8_empty_detection (notify : Nat → String → NotifyOutcome) :
    runCycle (Except.ok []) notify = { ret := 0, calls := [], logs := [] }
      ∧ execute (runCycle (Except.ok []) notify)
        = [⟨LogLevel.debug, "Starting trace conclusion check"⟩,
           ⟨LogLevel.debug, "Trace conclusion check: no traces to process"⟩]
      ∧ ((execute (runCycle (Except.ok []) notify)).all
          (fun l => !(l.level == LogLevel.info))) = true := by
  exact ⟨rfl, rfl, rfl⟩

/-- C9: on the empty candidate list, `processConcludedTraces` returns 0,
makes zero notification calls and emits no log line at all. -/
theorem claim_C9_empty_input_no_effects (notify : Nat → String → NotifyOutcome) :
    processConcludedTraces notify []
      = { successCount := 0, failureCount := 0, calls := [], logs := [] } := by
  rfl

/-- C10: the notification calls are issued exactly in input order with one
call per occurrence (the call sequence equals the input list), and the two
counters of the summary sum to the input length. -/
theorem claim_C10_order_and_counter_sum
    (notify : Nat → String → NotifyOutcome) (traceIds : List String) :
    (processConcludedTraces notify traceIds).calls = traceIds
      ∧ (processConcludedTraces notify traceIds).successCount
          + (processConcludedTraces notify traceIds).failureCount
        = traceIds.length := by
  unfold processConcludedTraces
  by_cases h : traceIds.length = 0
  · have hnil : traceIds = [] := List.length_eq_zero.mp h
    subst hnil
    simp
  · simp only [h, if_neg, if_false]
    constructor
    · simpa using processLoop_calls notify traceIds 0 _
    · have := processLoop_counts notify traceIds 0
        { successCount := 0, failureCount := 0, calls := []
          logs := [⟨LogLevel.info,
            "Processing " ++ toString traceIds.length
              ++ " concluded traces"⟩] }
      simpa using this

/-- C6: modelled from the spec (the `PeriodicRunner` source is not in the
snapshot): along every event sequence the number of started invocations
exceeds the number of finished ones exactly by the in-flight flag, so at most
one invocation is ever in flight; and a tick arriving while an invocation is
running starts nothing and queues nothing — it only bumps the skipped
counter. -/
theorem claim_C6_no_overlap :
    (∀ events : List SchedulerEvent,
        (schedulerRun events).started
          = (schedulerRun events).finished
            + (if (schedulerRun events).running then 1 else 0)
        ∧ (schedulerRun events).started ≤ (schedulerRun events).finished + 1)
      ∧ (∀ st fin sk : Nat,
          schedulerStep ⟨true, st, fin, sk⟩ SchedulerEvent.tick
            = ⟨true, st, fin, sk + 1⟩) := by
  constructor
  · intro events
    have h := schedulerFoldl_invariant events schedulerInit (by simp [schedulerInit])
    refine ⟨h, ?_⟩
    unfold schedulerRun
    by_cases hr : (List.foldl schedulerStep schedulerInit events).running
    · rw [if_pos hr] at h
      omega
    · rw [if_neg hr] at h
      omega
  · intro st fin sk
    rfl

end TraceConclusion
